import Mathlib

/-!
Verification development for the WheatWise FastAPI diagnosis service.

The definitions below are a shallow embedding of the Python source:
`app/services/diagnosis.py`, `app/services/analytics.py`,
`app/models/diagnosis.py`, `app/models/enums.py` and
`app/schemas/diagnosis.py`.  Pure computations become Lean functions,
the SQLAlchemy record store becomes an explicit list of records passed
through each operation, and fallible code (Python exceptions mapped to
HTTP error responses) returns `Except`.  Probability values are embedded
as rationals; the only property of `torch.exp` the proofs depend on is
its order behaviour, which is carried as explicit hypotheses where
needed.
-/

/-- Embedding of `DiseaseTypeEnum` from `app/models/enums.py`
(declaration order `BROWN_RUST, YELLOW_RUST, SEPTORIA, HEALTHY, MILDEW, OTHER`). -/
inductive DiseaseTypeEnum where
  | BROWN_RUST
  | YELLOW_RUST
  | SEPTORIA
  | HEALTHY
  | MILDEW
  | OTHER
deriving DecidableEq, Repr

/-- Embedding of `UserTypeEnum` from `app/models/enums.py`. -/
inductive UserTypeEnum where
  | USER
  | ADMIN
  | SYSTEM_ADMIN
deriving DecidableEq, Repr

/-- The `disease_types` dictionary inside
`DiagnosisServices._decode_prediction` (`app/services/diagnosis.py`):
indices 0..4 map to the five model classes; any other index is a missing
key (Python `KeyError`), embedded as `none`. -/
def disease_types : Nat → Option DiseaseTypeEnum
  | 0 => some DiseaseTypeEnum.BROWN_RUST
  | 1 => some DiseaseTypeEnum.YELLOW_RUST
  | 2 => some DiseaseTypeEnum.SEPTORIA
  | 3 => some DiseaseTypeEnum.HEALTHY
  | 4 => some DiseaseTypeEnum.MILDEW
  | _ => none

/-- Helper for `argmax`: walks the tail of the list carrying the index of the
current element, the best index seen so far and its value.  A later element
replaces the best only when strictly greater, which is exactly the
first-occurrence tie-break of `np.argmax`. -/
def argmaxAux : List ℚ → Nat → Nat → ℚ → Nat
  | [], _, best, _ => best
  | x :: xs, i, best, bestVal =>
    if bestVal < x then argmaxAux xs (i + 1) i x
    else argmaxAux xs (i + 1) best bestVal

/-- Embedding of `np.argmax(probs)` as used by `_decode_prediction`:
index of the first occurrence of the maximal element (0 on the empty list). -/
def argmax : List ℚ → Nat
  | [] => 0
  | x :: xs => argmaxAux xs 1 0 x

/-- Embedding of `DiagnosisServices._decode_prediction`
(`app/services/diagnosis.py` lines 326-345): look the arg-max index up in
the fixed `disease_types` table. -/
def decode_prediction (probs : List ℚ) : Option DiseaseTypeEnum :=
  disease_types (argmax probs)

/-- Value at the arg-max position, used to state the arg-max property. -/
def argmaxVal (probs : List ℚ) : ℚ :=
  probs.getD (argmax probs) 0

/-- Embedding of `torch.nn.functional.softmax(output[0], dim=0)` from
`DiagnosisServices._diagnose_image` (the single-image path, lines 298-324):
softmax over the class axis of one logit vector.  The transcendental
`exp` is abstracted as the parameter `E`; every theorem that needs a
property of `exp` (positivity, strict order) carries it as a hypothesis. -/
def softmaxVec (E : ℚ → ℚ) (v : List ℚ) : List ℚ :=
  v.map (fun x => E x / (v.map E).sum)

/-- Embedding of `torch.nn.functional.softmax(output, dim=0)` from
`DiagnosisServices.batch_diagnose_uploaded_images` (lines 501-508): the
code normalises over `dim=0`, which for a `(batch, classes)` output matrix
is the BATCH axis, so entry `(i, j)` is `E m[i][j] / sum over rows k of
E m[k][j]` (a per-column normalisation). -/
def softmaxDim0 (E : ℚ → ℚ) (m : List (List ℚ)) : List (List ℚ) :=
  m.map (fun row =>
    (List.range row.length).map (fun j =>
      E (row.getD j 0) / (m.map (fun r => E (r.getD j 0))).sum))

/-- Single-image pipeline `_diagnose_image` applied to the logit vector the
model produces for one image (`output[0]`): softmax over classes. -/
def diagnose_image (E : ℚ → ℚ) (logits : List ℚ) : List ℚ :=
  softmaxVec E logits

/-- Batch pipeline probability computation of
`batch_diagnose_uploaded_images`: the model output rows for the batch go
through `softmax(..., dim=0)` and are collected in input order
(`shuffle=False`, `probs.extend`). -/
def batch_probs (E : ℚ → ℚ) (outputs : List (List ℚ)) : List (List ℚ) :=
  softmaxDim0 E outputs

example : argmax [(1 : ℚ), 3, 3, 0, 2] = 1 := by decide
example : decode_prediction [(0 : ℚ), 0, 1, 0, 0] = some DiseaseTypeEnum.SEPTORIA := by decide
example : decode_prediction [(1 : ℚ), 1, 1, 1, 1] = some DiseaseTypeEnum.BROWN_RUST := by decide

/-- Embedding of one row of the `diagnosis` table
(`DiagnosisModel`, `app/models/diagnosis.py` lines 17-36).  Nullable
columns become `Option`; `mobile_id` is `Option` because server-side
uploads never set it; confidence-score JSON vectors become `List ℚ`;
the timestamp becomes a `Nat`. -/
structure DiagnosisRecord where
  server_id : String
  mobile_id : Option String
  user_idx : Nat
  server_diagnosis : Option DiseaseTypeEnum
  mobile_diagnosis : Option DiseaseTypeEnum
  manual_diagnosis : Option DiseaseTypeEnum
  remark : Option String
  mobile_image_path : Option String
  server_image_path : String
  image_name : String
  is_server_diagnosed : Bool
  created_at : Nat
  server_confidence_score : Option (List ℚ)
  mobile_confidence_score : Option (List ℚ)
deriving DecidableEq, Repr

instance : Inhabited DiagnosisRecord :=
  ⟨{ server_id := "", mobile_id := none, user_idx := 0,
     server_diagnosis := none, mobile_diagnosis := none, manual_diagnosis := none,
     remark := none, mobile_image_path := none, server_image_path := "",
     image_name := "", is_server_diagnosed := false, created_at := 0,
     server_confidence_score := none, mobile_confidence_score := none }⟩

/-- The persistent collection of diagnosis records, in insertion order. -/
abbrev Store := List DiagnosisRecord

deriving instance DecidableEq for Except

/-- Error kinds a service call can surface to its caller: `NotFound` is an
HTTP 404, `Forbidden` an HTTP 403 and `Internal` an HTTP 500. -/
inductive ErrKind where
  | NotFound
  | Forbidden
  | Internal
deriving DecidableEq, Repr

/-- Embedding of `MobileDiagnosisInputSchema`
(`app/schemas/diagnosis.py` lines 30-47). -/
structure MobileDiagnosisInput where
  mobile_id : String
  mobile_diagnosis : Option DiseaseTypeEnum
  manual_diagnosis : Option DiseaseTypeEnum
  mobile_image_path : String
  remark : Option String
  file_name : String
  mobile_confidence_score : Option (List ℚ)
deriving DecidableEq, Repr

/-- The parts of a FastAPI `UploadFile` the service reads: the filename,
the declared content type and the image kind `imghdr.what` detects from
the bytes (`none` when the bytes are not a recognised image). -/
structure UploadFile where
  filename : String
  content_type : String
  image_kind : Option String
deriving DecidableEq, Repr

/-- The `UPLOAD_FOLDER_PATH` environment configuration, modelled as a
fixed string. -/
def UPLOAD_FOLDER_PATH : String := "uploads"

/-- The `server_image_path` the services build for an uploaded file. -/
def uploadPath (filename : String) : String :=
  UPLOAD_FOLDER_PATH ++ "/" ++ filename

/-- Content types `FileServices.upload_image` accepts. -/
def allowedContentTypes : List String :=
  ["image/jpeg", "image/png", "image/gif", "image/bmp"]

/-- Image kinds (from `imghdr.what`) `FileServices.upload_image` accepts. -/
def allowedImageKinds : List String :=
  ["jpeg", "png", "gif", "bmp"]

/-- The record `FileServices.upload_image` creates
(`app/services/diagnosis.py` lines 82-91): only identity, path and name
fields are set; all diagnosis fields keep their column defaults
(`is_server_diagnosed` defaults to `False`, the rest to null). -/
def newUploadRecord (user_idx : Nat) (sid : String) (file : UploadFile)
    (t : Nat) : DiagnosisRecord :=
  { server_id := sid, mobile_id := none, user_idx := user_idx,
    server_diagnosis := none, mobile_diagnosis := none, manual_diagnosis := none,
    remark := none, mobile_image_path := none,
    server_image_path := uploadPath file.filename,
    image_name := file.filename, is_server_diagnosed := false, created_at := t,
    server_confidence_score := none, mobile_confidence_score := none }

/-- The blanket `except Exception` handler every service method ends with:
whatever error the body raised (including an `HTTPException` the body
raised deliberately) is caught and re-raised as an HTTP 500, so the
caller only ever sees `Internal` on failure. -/
def handleBlanket {α : Type} : Except ErrKind α → Except ErrKind α
  | Except.error _ => Except.error ErrKind.Internal
  | Except.ok v => Except.ok v

/-- Embedding of `FileServices.upload_image`
(`app/services/diagnosis.py` lines 41-104): validate the content type and
the sniffed image kind (each failure raises a 400 inside the `try`, which
the blanket handler converts to a 500), then append the new record and
commit. -/
def upload_image (store : Store) (file : UploadFile) (user_idx : Nat)
    (sid : String) (t : Nat) : Except ErrKind Store :=
  handleBlanket <|
    if (allowedContentTypes.contains file.content_type) = false then
      Except.error ErrKind.Internal
    else if (match file.image_kind with
             | some k => allowedImageKinds.contains k
             | none => false) = false then
      Except.error ErrKind.Internal
    else
      Except.ok (store ++ [newUploadRecord user_idx sid file t])

/-- Replace the first element satisfying `p` by its image under `f`,
matching an update through SQLAlchemy `.filter(...).first()`. -/
def updateFirstBy {α : Type} (p : α → Bool) (f : α → α) : List α → List α
  | [] => []
  | x :: xs => if p x then f x :: xs else x :: updateFirstBy p f xs

/-- Predicate matching the `update_manual_diagnosis` query
(`.filter(user_idx == ...).filter(server_id == ...)`). -/
def matchesManualKey (uid : Nat) (sid : String) (r : DiagnosisRecord) : Bool :=
  r.user_idx == uid && r.server_id == sid

/-- Body of `DiagnosisServices.update_manual_diagnosis`
(`app/services/diagnosis.py` lines 411-426): look the record up by
`(user_idx, server_id)`; raise a 404 when absent; otherwise set
`manual_diagnosis` and commit, returning the updated record. -/
def update_manual_diagnosis_body (store : Store) (sid : String) (uid : Nat)
    (d : DiseaseTypeEnum) : Except ErrKind (Store × DiagnosisRecord) :=
  match store.find? (matchesManualKey uid sid) with
  | none => Except.error ErrKind.NotFound
  | some r =>
    let r2 : DiagnosisRecord := { r with manual_diagnosis := some d }
    Except.ok (updateFirstBy (matchesManualKey uid sid) (fun _ => r2) store, r2)

/-- `DiagnosisServices.update_manual_diagnosis` as the caller sees it:
the body wrapped in the blanket `except Exception` handler, which turns
the deliberate 404 into a 500. -/
def update_manual_diagnosis (store : Store) (sid : String) (uid : Nat)
    (d : DiseaseTypeEnum) : Except ErrKind (Store × DiagnosisRecord) :=
  handleBlanket (update_manual_diagnosis_body store sid uid d)

/-- Predicate matching the `update_mobile_diagnosis` query
(`.filter(mobile_id == input.mobile_id)`). -/
def matchesMobileKey (mid : String) (r : DiagnosisRecord) : Bool :=
  r.mobile_id == some mid

/-- Body of `DiagnosisServices.update_mobile_diagnosis`
(`app/services/diagnosis.py` lines 598-616): look the record up by
`mobile_id`; when absent the code dereferences `None` (an
`AttributeError`, an internal error, not a 404); otherwise replace
`mobile_diagnosis`, `manual_diagnosis`, `remark` and
`mobile_confidence_score` with the submitted values (`mobile_image_path`
is never assigned) and commit. -/
def update_mobile_diagnosis_body (store : Store)
    (input : MobileDiagnosisInput) : Except ErrKind (Store × DiagnosisRecord) :=
  match store.find? (matchesMobileKey input.mobile_id) with
  | none => Except.error ErrKind.Internal
  | some r =>
    let r2 : DiagnosisRecord :=
      { r with mobile_diagnosis := input.mobile_diagnosis,
               manual_diagnosis := input.manual_diagnosis,
               remark := input.remark,
               mobile_confidence_score := input.mobile_confidence_score }
    Except.ok (updateFirstBy (matchesMobileKey input.mobile_id) (fun _ => r2) store, r2)

/-- `DiagnosisServices.update_mobile_diagnosis` with its blanket handler. -/
def update_mobile_diagnosis (store : Store)
    (input : MobileDiagnosisInput) : Except ErrKind (Store × DiagnosisRecord) :=
  handleBlanket (update_mobile_diagnosis_body store input)

/-- Embedding of `DiagnosisServices.upload_mobile_diagnosis`
(`app/services/diagnosis.py` lines 531-580): save the file, create a
record carrying the submitted mobile fields and commit.  The line that
would store `manual_diagnosis` is commented out in the source (line 560),
so the new record's `manual_diagnosis` stays null. -/
def upload_mobile_diagnosis (store : Store) (file : UploadFile)
    (input : MobileDiagnosisInput) (user_idx : Nat) (sid : String)
    (t : Nat) : Except ErrKind (Store × DiagnosisRecord) :=
  let r : DiagnosisRecord :=
    { server_id := sid, mobile_id := some input.mobile_id, user_idx := user_idx,
      server_diagnosis := none, mobile_diagnosis := input.mobile_diagnosis,
      manual_diagnosis := none,
      remark := input.remark, mobile_image_path := some input.mobile_image_path,
      server_image_path := uploadPath file.filename,
      image_name := file.filename, is_server_diagnosed := false, created_at := t,
      server_confidence_score := none, mobile_confidence_score := input.mobile_confidence_score }
  Except.ok (store ++ [r], r)

/-- Per-image classification as the batch pipeline sees it: the image at a
path either yields a probability vector or fails to decode/classify
(an exception inside the `CustomDataset` / `model` forward pass).  The
vectors it yields are the `softmax(output, dim=0)` rows of
`batch_diagnose_uploaded_images`; their values are irrelevant to the
store-level claims, so the classifier is a parameter. -/
abbrev Classifier := String → Option (List ℚ)

/-- Classify every image of the sweep: the `for batch_images in dataloader`
loop of `batch_diagnose_uploaded_images` raises out of the whole `try`
block as soon as any single image fails, so the combined result is `none`
when any per-image classification is `none`, and otherwise the list of
probability vectors in input order (`shuffle=False`, `probs.extend`). -/
def allClassify (cl : Classifier) : List String → Option (List (List ℚ))
  | [] => some []
  | p :: ps =>
    match cl p with
    | none => none
    | some v =>
      match allClassify cl ps with
      | none => none
      | some vs => some (v :: vs)

/-- The in-memory update loop of `batch_diagnose_uploaded_images`
(lines 510-520): walk the store, leaving already-diagnosed records
untouched and giving each pending record the next probability vector:
`server_diagnosis` from `_decode_prediction`, `is_server_diagnosed = True`
and `server_confidence_score` set together.  Running out of vectors is the
`probs[i]` `IndexError`, and a failing dictionary lookup in
`_decode_prediction` is a `KeyError`; both abort the whole `try` block. -/
def diagnosePending : List DiagnosisRecord → List (List ℚ) →
    Except ErrKind (List DiagnosisRecord)
  | [], _ => Except.ok []
  | r :: rs, probs =>
    if r.is_server_diagnosed then
      match diagnosePending rs probs with
      | Except.error e => Except.error e
      | Except.ok out => Except.ok (r :: out)
    else
      match probs with
      | [] => Except.error ErrKind.Internal
      | p :: ps =>
        match decode_prediction p with
        | none => Except.error ErrKind.Internal
        | some d =>
          match diagnosePending rs ps with
          | Except.error e => Except.error e
          | Except.ok out =>
            Except.ok ({ r with server_diagnosis := some d,
                                is_server_diagnosed := true,
                                server_confidence_score := some p } :: out)

/-- Embedding of `DiagnosisServices.batch_diagnose_uploaded_images`
(`app/services/diagnosis.py` lines 467-529): query the records with
`is_server_diagnosed == False`, classify all of their images, update each
pending record in memory and commit once at the end.  Any exception along
the way reaches the blanket handler, so the whole sweep fails as a 500. -/
def batch_diagnose (cl : Classifier) (store : Store) : Except ErrKind Store :=
  match allClassify cl
      ((store.filter (fun r => !r.is_server_diagnosed)).map
        (fun r => r.server_image_path)) with
  | none => Except.error ErrKind.Internal
  | some probs => diagnosePending store probs

/-- Durable effect of one sweep on the store: the single `db.commit()`
sits at the very end of the `try` block, so on any failure nothing was
committed and the store is unchanged. -/
def runSweepStore (cl : Classifier) (store : Store) : Store :=
  match batch_diagnose cl store with
  | Except.error _ => store
  | Except.ok s2 => s2

/-- A sweep together with its commit trace: the list of durable states the
sweep's commits produce, in order.  The code contains exactly one
`db.commit()` (line 522), executed only when the whole batch succeeded,
so the trace is the final store on success and empty on failure. -/
def batch_diagnose_run (cl : Classifier) (store : Store) :
    List Store × Store :=
  match batch_diagnose cl store with
  | Except.error _ => ([], store)
  | Except.ok s2 => ([s2], s2)

/-- Durable store visible after a crash that happens once `k` of the
sweep's commits have executed: the last of the first `k` committed states,
or the initial store when no commit has executed yet. -/
def durableAfter (cl : Classifier) (store : Store) (k : Nat) : Store :=
  (((batch_diagnose_run cl store).1).take k).getLastD store

/-- The label ordering of the analytics report:
`labels = [type.value for type in DiseaseTypeEnum]`
(`app/services/analytics.py` line 67), i.e. the full six-value
enumeration in declaration order. -/
def reportLabels : List DiseaseTypeEnum :=
  [DiseaseTypeEnum.BROWN_RUST, DiseaseTypeEnum.YELLOW_RUST,
   DiseaseTypeEnum.SEPTORIA, DiseaseTypeEnum.HEALTHY,
   DiseaseTypeEnum.MILDEW, DiseaseTypeEnum.OTHER]

/-- Qualifying records of `get_diagnosis_report`: the query filters on
`server_diagnosis IS NOT NULL AND manual_diagnosis IS NOT NULL`
(lines 52-59); each contributes its `(manual, server)` label pair. -/
def qualifyingPairs (store : Store) : List (DiseaseTypeEnum × DiseaseTypeEnum) :=
  store.filterMap (fun r =>
    match r.manual_diagnosis, r.server_diagnosis with
    | some m, some s => some (m, s)
    | _, _ => none)

/-- Number of qualifying pairs whose manual label is `m` and server label
is `s` — the content of cell `[m][s]` of
`sklearn.metrics.confusion_matrix(manual, server, labels=labels)`. -/
def cellCount (pairs : List (DiseaseTypeEnum × DiseaseTypeEnum))
    (m s : DiseaseTypeEnum) : Nat :=
  (pairs.filter (fun p => decide (p.1 = m ∧ p.2 = s))).length

/-- The confusion matrix of the report, row-indexed by the manual (true)
label and column-indexed by the server (predicted) label, both over
`reportLabels`. -/
def confusion_matrix (pairs : List (DiseaseTypeEnum × DiseaseTypeEnum)) :
    List (List Nat) :=
  reportLabels.map (fun m => reportLabels.map (fun s => cellCount pairs m s))

/-- The JSON payload of `get_diagnosis_report` when `return_json` is true
(lines 69-91). -/
structure ReportJson where
  correct_predictions : Nat
  incorrect_predictions : Nat
  total : Nat
  matrix : List (List Nat)
deriving DecidableEq, Repr

/-- The report computation of `get_diagnosis_report` (lines 52-91):
build the matrix over the qualifying records, then
`correct = sum(cm[i][i])`, `total = sum of all cells` and
`incorrect = total - correct`; no ratio is ever formed. -/
def diagnosis_report_json (store : Store) : ReportJson :=
  let pairs := qualifyingPairs store
  let cm := confusion_matrix pairs
  let n := reportLabels.length
  let correct := ((List.range n).map (fun i => (cm.getD i []).getD i 0)).sum
  let total := ((List.range n).map (fun i =>
    ((List.range n).map (fun j => (cm.getD i []).getD j 0)).sum)).sum
  { correct_predictions := correct,
    incorrect_predictions := total - correct,
    total := total,
    matrix := cm }

/-- The caller data `get_diagnosis_report` reads: the deserialised user's
role, a `UserTypeEnum` member. -/
structure CurrentUser where
  role : UserTypeEnum
deriving DecidableEq, Repr

/-- The role check of `get_diagnosis_report` compares the enum member
itself against the Python string `"System Admin"`
(`current_user.role != "System Admin"`, line 46); an `Enum` member never
equals a `str`, so the equality is false for every role, including
`SYSTEM_ADMIN`. -/
def role_equals_system_admin_string (_r : UserTypeEnum) : Bool := false

/-- Body of `AnalyticsServices.get_diagnosis_report` with `return_json`
(lines 43-91): raise a 403 when the role comparison fails, otherwise
return the report. -/
def get_diagnosis_report_body (store : Store) (user : CurrentUser) :
    Except ErrKind ReportJson :=
  if (role_equals_system_admin_string user.role) = false then
    Except.error ErrKind.Forbidden
  else
    Except.ok (diagnosis_report_json store)

/-- `AnalyticsServices.get_diagnosis_report` as the caller sees it: the
body wrapped in the blanket `except Exception` handler (lines 114-119),
which converts the deliberate 403 into a 500. -/
def get_diagnosis_report (store : Store) (user : CurrentUser) :
    Except ErrKind ReportJson :=
  handleBlanket (get_diagnosis_report_body store user)

/-- The record-level invariant of the data model: the diagnosed flag is
set exactly when both server result fields are set. -/
def recInv (r : DiagnosisRecord) : Prop :=
  r.is_server_diagnosed = true ↔
    (r.server_diagnosis ≠ none ∧ r.server_confidence_score ≠ none)

instance (r : DiagnosisRecord) : Decidable (recInv r) := by
  unfold recInv; infer_instance

/-- The store operations the invariant claim ranges over: record creation
at upload, the batch sweep, mobile create, mobile update and the
manual-diagnosis update. -/
inductive StoreOp where
  | upload (file : UploadFile) (user_idx : Nat) (sid : String) (t : Nat)
  | sweep (cl : Classifier)
  | mobileCreate (file : UploadFile) (input : MobileDiagnosisInput)
      (user_idx : Nat) (sid : String) (t : Nat)
  | mobileUpdate (input : MobileDiagnosisInput)
  | manualUpdate (sid : String) (uid : Nat) (d : DiseaseTypeEnum)

/-- Durable effect of one operation on the store; a failing operation
reaches the blanket handler before its `db.commit()`, leaving the store
unchanged. -/
def applyOp : StoreOp → Store → Store
  | StoreOp.upload f u sid t, s =>
    match upload_image s f u sid t with
    | Except.ok s2 => s2
    | Except.error _ => s
  | StoreOp.sweep cl, s => runSweepStore cl s
  | StoreOp.mobileCreate f inp u sid t, s =>
    match upload_mobile_diagnosis s f inp u sid t with
    | Except.ok (s2, _) => s2
    | Except.error _ => s
  | StoreOp.mobileUpdate inp, s =>
    match update_mobile_diagnosis s inp with
    | Except.ok (s2, _) => s2
    | Except.error _ => s
  | StoreOp.manualUpdate sid u d, s =>
    match update_manual_diagnosis s sid u d with
    | Except.ok (s2, _) => s2
    | Except.error _ => s

lemma handleBlanket_ok {α : Type} {x : Except ErrKind α} {v : α}
    (h : handleBlanket x = Except.ok v) : x = Except.ok v := by
  cases x with
  | error e => simp [handleBlanket] at h
  | ok w => simpa [handleBlanket] using h

lemma updateFirstBy_length {α : Type} (p : α → Bool) (f : α → α) :
    ∀ l : List α, (updateFirstBy p f l).length = l.length := by
  intro l
  induction l with
  | nil => rfl
  | cons a l ih =>
    by_cases h : p a <;> simp [updateFirstBy, h, ih]

lemma updateFirstBy_getD {α : Type} [Inhabited α] (p : α → Bool) (f : α → α) :
    ∀ (l : List α) (i : Nat),
      (updateFirstBy p f l).getD i default = l.getD i default ∨
      ((updateFirstBy p f l).getD i default = f (l.getD i default) ∧
        l.find? p = some (l.getD i default)) := by
  intro l
  induction l with
  | nil => intro i; left; rfl
  | cons a l ih =>
    intro i
    by_cases h : p a
    · cases i with
      | zero => right; simp [updateFirstBy, h, List.find?]
      | succ j => left; simp [updateFirstBy, h]
    · cases i with
      | zero => left; simp [updateFirstBy, h]
      | succ j =>
        have := ih j
        simpa [updateFirstBy, h, List.find?] using this

lemma updateFirstBy_mem {α : Type} (p : α → Bool) (f : α → α) :
    ∀ (l : List α) (y : α), y ∈ updateFirstBy p f l →
      y ∈ l ∨ ∃ x, x ∈ l ∧ y = f x := by
  intro l
  induction l with
  | nil => intro y hy; simp [updateFirstBy] at hy
  | cons a l ih =>
    intro y hy
    by_cases h : p a
    · simp only [updateFirstBy, h, if_pos] at hy
      rcases List.mem_cons.mp hy with h1 | h1
      · right; exact ⟨a, List.mem_cons_self a l, h1⟩
      · left; exact List.mem_cons_of_mem a h1
    · simp only [updateFirstBy, h, if_neg, Bool.false_eq_true,
        not_false_iff] at hy
      rcases List.mem_cons.mp hy with h1 | h1
      · left; exact h1 ▸ List.mem_cons_self a l
      · rcases ih y h1 with h2 | ⟨x, hx, hfx⟩
        · left; exact List.mem_cons_of_mem a h2
        · right; exact ⟨x, List.mem_cons_of_mem a hx, hfx⟩

lemma allClassify_length {cl : Classifier} :
    ∀ {paths : List String} {probs : List (List ℚ)},
      allClassify cl paths = some probs → probs.length = paths.length := by
  intro paths
  induction paths with
  | nil => intro probs h; simp [allClassify] at h; simp [← h]
  | cons p ps ih =>
    intro probs h
    simp only [allClassify] at h
    cases hcl : cl p with
    | none => rw [hcl] at h; exact absurd h (by simp)
    | some v =>
      rw [hcl] at h
      cases hrec : allClassify cl ps with
      | none => rw [hrec] at h; exact absurd h (by simp)
      | some vs =>
        rw [hrec] at h
        simp only [Option.some.injEq] at h
        simp [← h, ih hrec]

lemma allClassify_of_mem_none {cl : Classifier} :
    ∀ {paths : List String} {q : String}, q ∈ paths → cl q = none →
      allClassify cl paths = none := by
  intro paths
  induction paths with
  | nil => intro q hq; simp at hq
  | cons p ps ih =>
    intro q hq hnone
    rcases List.mem_cons.mp hq with h | h
    · simp [allClassify, ← h, hnone]
    · simp only [allClassify]
      cases hcl : cl p with
      | none => rfl
      | some v => rw [ih h hnone]

lemma diagnosePending_length :
    ∀ {l : List DiagnosisRecord} {probs : List (List ℚ)}
      {out : List DiagnosisRecord},
      diagnosePending l probs = Except.ok out → out.length = l.length := by
  intro l
  induction l with
  | nil =>
    intro probs out h
    simp only [diagnosePending, Except.ok.injEq] at h
    simp [← h]
  | cons r rs ih =>
    intro probs out h
    simp only [diagnosePending] at h
    by_cases hflag : r.is_server_diagnosed
    · rw [if_pos hflag] at h
      cases hrec : diagnosePending rs probs with
      | error e => rw [hrec] at h; exact absurd h (by simp)
      | ok o =>
        rw [hrec] at h
        simp only [Except.ok.injEq] at h
        simp [← h, ih hrec]
    · rw [if_neg hflag] at h
      cases probs with
      | nil => exact absurd h (by simp)
      | cons p ps =>
        dsimp only at h
        cases hdec : decode_prediction p with
        | none => rw [hdec] at h; exact absurd h (by simp)
        | some d =>
          rw [hdec] at h
          cases hrec : diagnosePending rs ps with
          | error e => rw [hrec] at h; exact absurd h (by simp)
          | ok o =>
            rw [hrec] at h
            simp only [Except.ok.injEq] at h
            simp [← h, ih hrec]

lemma diagnosePending_all_diagnosed :
    ∀ {l : List DiagnosisRecord} {probs : List (List ℚ)}
      {out : List DiagnosisRecord},
      diagnosePending l probs = Except.ok out →
      ∀ r ∈ out, r.is_server_diagnosed = true := by
  intro l
  induction l with
  | nil =>
    intro probs out h r hr
    simp only [diagnosePending, Except.ok.injEq] at h
    rw [← h] at hr; simp at hr
  | cons r rs ih =>
    intro probs out h y hy
    simp only [diagnosePending] at h
    by_cases hflag : r.is_server_diagnosed
    · rw [if_pos hflag] at h
      cases hrec : diagnosePending rs probs with
      | error e => rw [hrec] at h; exact absurd h (by simp)
      | ok o =>
        rw [hrec] at h
        simp only [Except.ok.injEq] at h
        rw [← h] at hy
        rcases List.mem_cons.mp hy with h1 | h1
        · rw [h1]; exact hflag
        · exact ih hrec y h1
    · rw [if_neg hflag] at h
      cases probs with
      | nil => exact absurd h (by simp)
      | cons p ps =>
        dsimp only at h
        cases hdec : decode_prediction p with
        | none => rw [hdec] at h; exact absurd h (by simp)
        | some d =>
          rw [hdec] at h
          cases hrec : diagnosePending rs ps with
          | error e => rw [hrec] at h; exact absurd h (by simp)
          | ok o =>
            rw [hrec] at h
            simp only [Except.ok.injEq] at h
            rw [← h] at hy
            rcases List.mem_cons.mp hy with h1 | h1
            · rw [h1]
            · exact ih hrec y h1

lemma diagnosePending_of_all_diagnosed :
    ∀ {l : List DiagnosisRecord},
      (∀ r ∈ l, r.is_server_diagnosed = true) →
      ∀ probs, diagnosePending l probs = Except.ok l := by
  intro l
  induction l with
  | nil => intro _ probs; rfl
  | cons r rs ih =>
    intro hall probs
    have hr : r.is_server_diagnosed = true := hall r (List.mem_cons_self r rs)
    have hrs : ∀ x ∈ rs, x.is_server_diagnosed = true := fun x hx =>
      hall x (List.mem_cons_of_mem r hx)
    simp only [diagnosePending, hr, if_pos, ih hrs probs]

lemma diagnosePending_getD_of_diagnosed :
    ∀ {l : List DiagnosisRecord} {probs : List (List ℚ)}
      {out : List DiagnosisRecord},
      diagnosePending l probs = Except.ok out →
      ∀ i, (l.getD i default).is_server_diagnosed = true →
        out.getD i default = l.getD i default := by
  intro l
  induction l with
  | nil =>
    intro probs out h i _
    simp only [diagnosePending, Except.ok.injEq] at h
    rw [← h]
  | cons r rs ih =>
    intro probs out h i hdiag
    simp only [diagnosePending] at h
    by_cases hflag : r.is_server_diagnosed
    · rw [if_pos hflag] at h
      cases hrec : diagnosePending rs probs with
      | error e => rw [hrec] at h; exact absurd h (by simp)
      | ok o =>
        rw [hrec] at h
        simp only [Except.ok.injEq] at h
        rw [← h]
        cases i with
        | zero => rfl
        | succ j => exact ih hrec j (by simpa using hdiag)
    · rw [if_neg hflag] at h
      cases probs with
      | nil => exact absurd h (by simp)
      | cons p ps =>
        dsimp only at h
        cases hdec : decode_prediction p with
        | none => rw [hdec] at h; exact absurd h (by simp)
        | some d =>
          rw [hdec] at h
          cases hrec : diagnosePending rs ps with
          | error e => rw [hrec] at h; exact absurd h (by simp)
          | ok o =>
            rw [hrec] at h
            simp only [Except.ok.injEq] at h
            rw [← h]
            cases i with
            | zero => exact absurd (by simpa using hdiag) hflag
            | succ j => exact ih hrec j (by simpa using hdiag)

lemma diagnosePending_recInv :
    ∀ {l : List DiagnosisRecord} {probs : List (List ℚ)}
      {out : List DiagnosisRecord},
      diagnosePending l probs = Except.ok out →
      (∀ r ∈ l, recInv r) → ∀ r ∈ out, recInv r := by
  intro l
  induction l with
  | nil =>
    intro probs out h _ r hr
    simp only [diagnosePending, Except.ok.injEq] at h
    rw [← h] at hr; simp at hr
  | cons r rs ih =>
    intro probs out h hinv y hy
    simp only [diagnosePending] at h
    have hrsinv : ∀ x ∈ rs, recInv x := fun x hx =>
      hinv x (List.mem_cons_of_mem r hx)
    by_cases hflag : r.is_server_diagnosed
    · rw [if_pos hflag] at h
      cases hrec : diagnosePending rs probs with
      | error e => rw [hrec] at h; exact absurd h (by simp)
      | ok o =>
        rw [hrec] at h
        simp only [Except.ok.injEq] at h
        rw [← h] at hy
        rcases List.mem_cons.mp hy with h1 | h1
        · rw [h1]; exact hinv r (List.mem_cons_self r rs)
        · exact ih hrec hrsinv y h1
    · rw [if_neg hflag] at h
      cases probs with
      | nil => exact absurd h (by simp)
      | cons p ps =>
        dsimp only at h
        cases hdec : decode_prediction p with
        | none => rw [hdec] at h; exact absurd h (by simp)
        | some d =>
          rw [hdec] at h
          cases hrec : diagnosePending rs ps with
          | error e => rw [hrec] at h; exact absurd h (by simp)
          | ok o =>
            rw [hrec] at h
            simp only [Except.ok.injEq] at h
            rw [← h] at hy
            rcases List.mem_cons.mp hy with h1 | h1
            · rw [h1]; constructor
              · intro _; exact ⟨by simp, by simp⟩
              · intro _; rfl
            · exact ih hrec hrsinv y h1

lemma cellCount_singleton (q : DiseaseTypeEnum × DiseaseTypeEnum)
    (m s : DiseaseTypeEnum) :
    cellCount [q] m s = if q.1 = m ∧ q.2 = s then 1 else 0 := by
  by_cases h : q.1 = m ∧ q.2 = s <;> simp [cellCount, h]

lemma cellCount_nil (m s : DiseaseTypeEnum) : cellCount [] m s = 0 := rfl

lemma cellCount_cons (q : DiseaseTypeEnum × DiseaseTypeEnum)
    (l : List (DiseaseTypeEnum × DiseaseTypeEnum)) (m s : DiseaseTypeEnum) :
    cellCount (q :: l) m s =
      (if q.1 = m ∧ q.2 = s then 1 else 0) + cellCount l m s := by
  by_cases h : q.1 = m ∧ q.2 = s <;>
    simp [cellCount, List.filter_cons, h, Nat.add_comm]

/-- Shorthand for the total the report computes: the sum of every cell of
the confusion matrix over the full label range. -/
def reportTotal (pairs : List (DiseaseTypeEnum × DiseaseTypeEnum)) : Nat :=
  ((List.range reportLabels.length).map (fun i =>
    ((List.range reportLabels.length).map (fun j =>
      ((confusion_matrix pairs).getD i []).getD j 0)).sum)).sum

/-- Shorthand for the diagonal sum the report computes. -/
def reportCorrect (pairs : List (DiseaseTypeEnum × DiseaseTypeEnum)) : Nat :=
  ((List.range reportLabels.length).map (fun i =>
    ((confusion_matrix pairs).getD i []).getD i 0)).sum

lemma reportTotal_expand (pairs : List (DiseaseTypeEnum × DiseaseTypeEnum)) :
    reportTotal pairs =
      ((cellCount pairs DiseaseTypeEnum.BROWN_RUST DiseaseTypeEnum.BROWN_RUST +
        (cellCount pairs DiseaseTypeEnum.BROWN_RUST DiseaseTypeEnum.YELLOW_RUST +
        (cellCount pairs DiseaseTypeEnum.BROWN_RUST DiseaseTypeEnum.SEPTORIA +
        (cellCount pairs DiseaseTypeEnum.BROWN_RUST DiseaseTypeEnum.HEALTHY +
        (cellCount pairs DiseaseTypeEnum.BROWN_RUST DiseaseTypeEnum.MILDEW +
        (cellCount pairs DiseaseTypeEnum.BROWN_RUST DiseaseTypeEnum.OTHER + 0)))))) +
      ((cellCount pairs DiseaseTypeEnum.YELLOW_RUST DiseaseTypeEnum.BROWN_RUST +
        (cellCount pairs DiseaseTypeEnum.YELLOW_RUST DiseaseTypeEnum.YELLOW_RUST +
        (cellCount pairs DiseaseTypeEnum.YELLOW_RUST DiseaseTypeEnum.SEPTORIA +
        (cellCount pairs DiseaseTypeEnum.YELLOW_RUST DiseaseTypeEnum.HEALTHY +
        (cellCount pairs DiseaseTypeEnum.YELLOW_RUST DiseaseTypeEnum.MILDEW +
        (cellCount pairs DiseaseTypeEnum.YELLOW_RUST DiseaseTypeEnum.OTHER + 0)))))) +
      ((cellCount pairs DiseaseTypeEnum.SEPTORIA DiseaseTypeEnum.BROWN_RUST +
        (cellCount pairs DiseaseTypeEnum.SEPTORIA DiseaseTypeEnum.YELLOW_RUST +
        (cellCount pairs DiseaseTypeEnum.SEPTORIA DiseaseTypeEnum.SEPTORIA +
        (cellCount pairs DiseaseTypeEnum.SEPTORIA DiseaseTypeEnum.HEALTHY +
        (cellCount pairs DiseaseTypeEnum.SEPTORIA DiseaseTypeEnum.MILDEW +
        (cellCount pairs DiseaseTypeEnum.SEPTORIA DiseaseTypeEnum.OTHER + 0)))))) +
      ((cellCount pairs DiseaseTypeEnum.HEALTHY DiseaseTypeEnum.BROWN_RUST +
        (cellCount pairs DiseaseTypeEnum.HEALTHY DiseaseTypeEnum.YELLOW_RUST +
        (cellCount pairs DiseaseTypeEnum.HEALTHY DiseaseTypeEnum.SEPTORIA +
        (cellCount pairs DiseaseTypeEnum.HEALTHY DiseaseTypeEnum.HEALTHY +
        (cellCount pairs DiseaseTypeEnum.HEALTHY DiseaseTypeEnum.MILDEW +
        (cellCount pairs DiseaseTypeEnum.HEALTHY DiseaseTypeEnum.OTHER + 0)))))) +
      ((cellCount pairs DiseaseTypeEnum.MILDEW DiseaseTypeEnum.BROWN_RUST +
        (cellCount pairs DiseaseTypeEnum.MILDEW DiseaseTypeEnum.YELLOW_RUST +
        (cellCount pairs DiseaseTypeEnum.MILDEW DiseaseTypeEnum.SEPTORIA +
        (cellCount pairs DiseaseTypeEnum.MILDEW DiseaseTypeEnum.HEALTHY +
        (cellCount pairs DiseaseTypeEnum.MILDEW DiseaseTypeEnum.MILDEW +
        (cellCount pairs DiseaseTypeEnum.MILDEW DiseaseTypeEnum.OTHER + 0)))))) +
      ((cellCount pairs DiseaseTypeEnum.OTHER DiseaseTypeEnum.BROWN_RUST +
        (cellCount pairs DiseaseTypeEnum.OTHER DiseaseTypeEnum.YELLOW_RUST +
        (cellCount pairs DiseaseTypeEnum.OTHER DiseaseTypeEnum.SEPTORIA +
        (cellCount pairs DiseaseTypeEnum.OTHER DiseaseTypeEnum.HEALTHY +
        (cellCount pairs DiseaseTypeEnum.OTHER DiseaseTypeEnum.MILDEW +
        (cellCount pairs DiseaseTypeEnum.OTHER DiseaseTypeEnum.OTHER + 0)))))) +
      0)))))) := by
  rfl

lemma reportTotal_cons (q : DiseaseTypeEnum × DiseaseTypeEnum)
    (l : List (DiseaseTypeEnum × DiseaseTypeEnum)) :
    reportTotal (q :: l) = reportTotal [q] + reportTotal l := by
  rw [reportTotal_expand (q :: l), reportTotal_expand [q], reportTotal_expand l]
  simp only [cellCount_cons, cellCount_nil]
  ring

lemma reportTotal_singleton (q : DiseaseTypeEnum × DiseaseTypeEnum) :
    reportTotal [q] = 1 := by
  rcases q with ⟨a, b⟩
  cases a <;> cases b <;> decide

lemma reportTotal_eq_length :
    ∀ pairs : List (DiseaseTypeEnum × DiseaseTypeEnum),
      reportTotal pairs = pairs.length := by
  intro pairs
  induction pairs with
  | nil => decide
  | cons q l ih =>
    rw [reportTotal_cons, reportTotal_singleton, ih, List.length_cons,
      Nat.add_comm]

lemma reportCorrect_le_total (pairs : List (DiseaseTypeEnum × DiseaseTypeEnum)) :
    reportCorrect pairs ≤ reportTotal pairs := by
  rw [reportTotal_expand]
  have hc : reportCorrect pairs =
      cellCount pairs DiseaseTypeEnum.BROWN_RUST DiseaseTypeEnum.BROWN_RUST +
      (cellCount pairs DiseaseTypeEnum.YELLOW_RUST DiseaseTypeEnum.YELLOW_RUST +
      (cellCount pairs DiseaseTypeEnum.SEPTORIA DiseaseTypeEnum.SEPTORIA +
      (cellCount pairs DiseaseTypeEnum.HEALTHY DiseaseTypeEnum.HEALTHY +
      (cellCount pairs DiseaseTypeEnum.MILDEW DiseaseTypeEnum.MILDEW +
      (cellCount pairs DiseaseTypeEnum.OTHER DiseaseTypeEnum.OTHER + 0))))) := rfl
  rw [hc]
  omega

lemma diagnosis_report_json_parts (store : Store) :
    (diagnosis_report_json store).total = reportTotal (qualifyingPairs store) ∧
    (diagnosis_report_json store).correct_predictions =
      reportCorrect (qualifyingPairs store) ∧
    (diagnosis_report_json store).incorrect_predictions =
      reportTotal (qualifyingPairs store) - reportCorrect (qualifyingPairs store) ∧
    (diagnosis_report_json store).matrix =
      confusion_matrix (qualifyingPairs store) := by
  exact ⟨rfl, rfl, rfl, rfl⟩

lemma batch_diagnose_ok_elim {cl : Classifier} {store out : Store}
    (h : batch_diagnose cl store = Except.ok out) :
    ∃ probs, allClassify cl
        ((store.filter (fun r => !r.is_server_diagnosed)).map
          (fun r => r.server_image_path)) = some probs ∧
      diagnosePending store probs = Except.ok out := by
  unfold batch_diagnose at h
  cases hcl : allClassify cl
      ((store.filter (fun r => !r.is_server_diagnosed)).map
        (fun r => r.server_image_path)) with
  | none => rw [hcl] at h; exact absurd h (by simp)
  | some probs => rw [hcl] at h; exact ⟨probs, rfl, h⟩

lemma argmax_five_middle {a b : ℚ} (hab : a < b) :
    argmax [a, a, b, a, a] = 2 := by
  have h1 : ¬ a < a := lt_irrefl a
  have h2 : ¬ b < a := not_lt.mpr hab.le
  simp [argmax, argmaxAux, h1, h2, hab]

/-- C7: over the fixed 5-class ordering, `_decode_prediction` returns the
class at the arg-max index, ties between maximal entries go to the lower
index (a strictly larger value is required to move the arg-max to a later
index, and every entry before the arg-max is strictly below the maximal
value), and the automated decode never yields `OTHER`. -/
theorem decode_prediction_argmax_spec (a b c d e : ℚ) :
    decode_prediction [a, b, c, d, e] ≠ some DiseaseTypeEnum.OTHER
  ∧ decode_prediction [a, b, c, d, e] = disease_types (argmax [a, b, c, d, e])
  ∧ argmax [a, b, c, d, e] < 5
  ∧ a ≤ argmaxVal [a, b, c, d, e]
  ∧ b ≤ argmaxVal [a, b, c, d, e]
  ∧ c ≤ argmaxVal [a, b, c, d, e]
  ∧ d ≤ argmaxVal [a, b, c, d, e]
  ∧ e ≤ argmaxVal [a, b, c, d, e]
  ∧ (0 < argmax [a, b, c, d, e] → a < argmaxVal [a, b, c, d, e])
  ∧ (1 < argmax [a, b, c, d, e] → b < argmaxVal [a, b, c, d, e])
  ∧ (2 < argmax [a, b, c, d, e] → c < argmaxVal [a, b, c, d, e])
  ∧ (3 < argmax [a, b, c, d, e] → d < argmaxVal [a, b, c, d, e]) := by
  simp only [decode_prediction, argmaxVal, argmax, argmaxAux]
  split_ifs <;>
    refine ⟨by decide, by trivial, by norm_num, ?_, ?_, ?_, ?_, ?_, ?_, ?_, ?_, ?_⟩ <;>
    norm_num [List.getD] <;>
    linarith

/-- Witness for `decode_prediction_argmax_spec` at the concrete vector
`[1, 3, 3, 0, 2]` (a tie between indices 1 and 2). -/
theorem decode_prediction_argmax_spec_witness :
    decode_prediction [(1 : ℚ), 3, 3, 0, 2] ≠ some DiseaseTypeEnum.OTHER
  ∧ decode_prediction [(1 : ℚ), 3, 3, 0, 2] =
      disease_types (argmax [(1 : ℚ), 3, 3, 0, 2])
  ∧ argmax [(1 : ℚ), 3, 3, 0, 2] < 5
  ∧ (1 : ℚ) ≤ argmaxVal [(1 : ℚ), 3, 3, 0, 2]
  ∧ (3 : ℚ) ≤ argmaxVal [(1 : ℚ), 3, 3, 0, 2]
  ∧ (3 : ℚ) ≤ argmaxVal [(1 : ℚ), 3, 3, 0, 2]
  ∧ (0 : ℚ) ≤ argmaxVal [(1 : ℚ), 3, 3, 0, 2]
  ∧ (2 : ℚ) ≤ argmaxVal [(1 : ℚ), 3, 3, 0, 2]
  ∧ (0 < argmax [(1 : ℚ), 3, 3, 0, 2] → (1 : ℚ) < argmaxVal [(1 : ℚ), 3, 3, 0, 2])
  ∧ (1 < argmax [(1 : ℚ), 3, 3, 0, 2] → (3 : ℚ) < argmaxVal [(1 : ℚ), 3, 3, 0, 2])
  ∧ (2 < argmax [(1 : ℚ), 3, 3, 0, 2] → (3 : ℚ) < argmaxVal [(1 : ℚ), 3, 3, 0, 2])
  ∧ (3 < argmax [(1 : ℚ), 3, 3, 0, 2] → (0 : ℚ) < argmaxVal [(1 : ℚ), 3, 3, 0, 2]) :=
  decode_prediction_argmax_spec 1 3 3 0 2

/-- C1: the single-image path softmaxes the class vector
(`softmax(output[0], dim=0)`), while the batch path softmaxes over the
batch dimension (`softmax(output, dim=0)`), so batching DOES change the
class decoding: for a batch holding the single image whose logits are
`[0, 0, 1, 0, 0]`, every column of the batch softmax normalises to 1 and
the batch decode is `BROWN_RUST`, whereas the single-image decode of the
same logits is `SEPTORIA`.  The hypotheses are the two order facts of
`exp` the computation rests on: `exp` is positive and strictly increasing
at the logit values `0 < 1`. -/
theorem batch_softmax_dim0_bug (E : ℚ → ℚ) (h0 : 0 < E 0) (h01 : E 0 < E 1) :
    decode_prediction (diagnose_image E [0, 0, 1, 0, 0]) =
      some DiseaseTypeEnum.SEPTORIA
  ∧ (batch_probs E [[0, 0, 1, 0, 0]]).map decode_prediction =
      [some DiseaseTypeEnum.BROWN_RUST]
  ∧ (batch_probs E [[0, 0, 1, 0, 0]]).length = 1 := by
  have e0 : E 0 ≠ 0 := ne_of_gt h0
  have e1 : E 1 ≠ 0 := ne_of_gt (lt_trans h0 h01)
  refine ⟨?_, ?_, ?_⟩
  · have hexp : diagnose_image E [0, 0, 1, 0, 0] =
        [E 0 / (E 0 + (E 0 + (E 1 + (E 0 + E 0)))),
         E 0 / (E 0 + (E 0 + (E 1 + (E 0 + E 0)))),
         E 1 / (E 0 + (E 0 + (E 1 + (E 0 + E 0)))),
         E 0 / (E 0 + (E 0 + (E 1 + (E 0 + E 0)))),
         E 0 / (E 0 + (E 0 + (E 1 + (E 0 + E 0))))] := by
      simp [diagnose_image, softmaxVec]
    have hS : (0 : ℚ) < E 0 + (E 0 + (E 1 + (E 0 + E 0))) := by linarith
    have hab : E 0 / (E 0 + (E 0 + (E 1 + (E 0 + E 0)))) <
        E 1 / (E 0 + (E 0 + (E 1 + (E 0 + E 0)))) := by
      rw [div_lt_div_iff₀ hS hS]
      nlinarith [mul_pos (sub_pos.mpr h01) hS]
    rw [hexp]
    unfold decode_prediction
    rw [argmax_five_middle hab]
    rfl
  · have hbatch : batch_probs E [[0, 0, 1, 0, 0]] =
        [[E 0 / (E 0 + 0), E 0 / (E 0 + 0), E 1 / (E 1 + 0),
          E 0 / (E 0 + 0), E 0 / (E 0 + 0)]] := by
      simp [batch_probs, softmaxDim0, List.range_succ]
    rw [hbatch]
    simp only [add_zero, div_self e0, div_self e1, List.map_cons, List.map_nil]
    have : decode_prediction [(1 : ℚ), 1, 1, 1, 1] =
        some DiseaseTypeEnum.BROWN_RUST := by decide
    rw [this]
  · rfl

/-- Witness for `batch_softmax_dim0_bug`: the stand-in `fun x => x + 1`
satisfies the two order facts of `exp` used by the theorem, and the two
pipeline paths decode the same image differently under it. -/
theorem batch_softmax_dim0_bug_witness :
    (0 : ℚ) < (fun x : ℚ => x + 1) 0
  ∧ (fun x : ℚ => x + 1) 0 < (fun x : ℚ => x + 1) 1
  ∧ decode_prediction (diagnose_image (fun x : ℚ => x + 1) [0, 0, 1, 0, 0]) =
      some DiseaseTypeEnum.SEPTORIA
  ∧ (batch_probs (fun x : ℚ => x + 1) [[0, 0, 1, 0, 0]]).map decode_prediction =
      [some DiseaseTypeEnum.BROWN_RUST] := by
  refine ⟨by norm_num, by norm_num, ?_, ?_⟩
  · exact (batch_softmax_dim0_bug (fun x : ℚ => x + 1) (by norm_num)
      (by norm_num)).1
  · exact (batch_softmax_dim0_bug (fun x : ℚ => x + 1) (by norm_num)
      (by norm_num)).2.1

/-- A pending record (not yet server-diagnosed) with the given identity
and image path, as `FileServices.upload_image` creates it. -/
def pendingRec (sid path : String) : DiagnosisRecord :=
  { server_id := sid, mobile_id := none, user_idx := 1,
    server_diagnosis := none, mobile_diagnosis := none, manual_diagnosis := none,
    remark := none, mobile_image_path := none, server_image_path := path,
    image_name := path, is_server_diagnosed := false, created_at := 0,
    server_confidence_score := none, mobile_confidence_score := none }

/-- A classifier whose image at path `img2` cannot be decoded; every other
image classifies as `[1, 0, 0, 0, 0]`. -/
def corruptSecondCl : Classifier :=
  fun p => if p = "img2" then none else some [1, 0, 0, 0, 0]

/-- A classifier that succeeds on every image. -/
def totalCl : Classifier := fun _ => some [1, 0, 0, 0, 0]

/-- Three pending records, the second with the corrupt image. -/
def sweepStore3 : Store :=
  [pendingRec "a" "img1", pendingRec "b" "img2", pendingRec "c" "img3"]

/-- Two pending records for the commit-trace counterexample. -/
def sweepStore2 : Store :=
  [pendingRec "a" "img1", pendingRec "b" "img2"]

/-- C2 counterexample: on a batch of three pending records where only the
second image fails to decode, the sweep does NOT diagnose the two healthy
siblings — the exception aborts the entire `try` block before the commit,
the call fails with a 500 and the store is unchanged, leaving zero (not
two) newly diagnosed records. -/
theorem sweep_failure_not_isolated_counterexample :
    batch_diagnose corruptSecondCl sweepStore3 = Except.error ErrKind.Internal
  ∧ runSweepStore corruptSecondCl sweepStore3 = sweepStore3
  ∧ ((runSweepStore corruptSecondCl sweepStore3).filter
      (fun r => r.is_server_diagnosed)).length = 0
  ∧ (sweepStore3.getD 0 default).is_server_diagnosed = false
  ∧ (sweepStore3.getD 2 default).is_server_diagnosed = false := by
  refine ⟨by decide, by decide, by decide, by decide, by decide⟩

/-- C2 amended: when any pending record's image fails to decode or
classify, the sweep as a whole fails with a 500 and commits nothing: every
record — the failing one and all of its siblings — is left exactly as it
was, pending for the next sweep. -/
theorem sweep_failure_aborts_whole_sweep (cl : Classifier) (store : Store)
    (h : ∃ r ∈ store, r.is_server_diagnosed = false ∧
      cl r.server_image_path = none) :
    batch_diagnose cl store = Except.error ErrKind.Internal
  ∧ runSweepStore cl store = store := by
  obtain ⟨r, hmem, hflag, hnone⟩ := h
  have hfil : r ∈ store.filter (fun r => !r.is_server_diagnosed) :=
    List.mem_filter.mpr ⟨hmem, by simp [hflag]⟩
  have hpath : r.server_image_path ∈
      (store.filter (fun r => !r.is_server_diagnosed)).map
        (fun r => r.server_image_path) :=
    List.mem_map_of_mem _ hfil
  have hcl := allClassify_of_mem_none hpath hnone
  constructor
  · unfold batch_diagnose
    rw [hcl]
  · unfold runSweepStore batch_diagnose
    rw [hcl]

/-- Witness for `sweep_failure_aborts_whole_sweep` on the concrete corrupt
batch of three. -/
theorem sweep_failure_aborts_whole_sweep_witness :
    (∃ r ∈ sweepStore3, r.is_server_diagnosed = false ∧
      corruptSecondCl r.server_image_path = none)
  ∧ batch_diagnose corruptSecondCl sweepStore3 = Except.error ErrKind.Internal
  ∧ runSweepStore corruptSecondCl sweepStore3 = sweepStore3 := by
  have h : ∃ r ∈ sweepStore3, r.is_server_diagnosed = false ∧
      corruptSecondCl r.server_image_path = none := by
    refine ⟨pendingRec "b" "img2", by decide, by decide, by decide⟩
  exact ⟨h, (sweep_failure_aborts_whole_sweep corruptSecondCl sweepStore3 h).1,
    (sweep_failure_aborts_whole_sweep corruptSecondCl sweepStore3 h).2⟩

/-- C3 counterexample: on two pending records the sweep produces exactly
ONE committed state, and in that single committed state the second record
is already diagnosed — no durable state has only the first record
diagnosed, so there is no per-record commit point. -/
theorem sweep_commit_per_record_counterexample :
    (batch_diagnose_run totalCl sweepStore2).1.length = 1
  ∧ (∀ t ∈ (batch_diagnose_run totalCl sweepStore2).1,
      (t.getD 0 default).is_server_diagnosed = true ∧
      (t.getD 1 default).is_server_diagnosed = true)
  ∧ durableAfter totalCl sweepStore2 0 = sweepStore2 := by
  refine ⟨by decide, by decide, by decide⟩

/-- C3 amended: within one sweep all successfully classified records are
committed in a single transaction at the end of the batch, not one commit
per record: the sweep's commit trace has at most one entry, each committed
state is the full successful result of the sweep, and the durable store
after a crash at any point is either the untouched initial store (crash
before the commit — every record of the sweep still pending) or the final
store with every visited record diagnosed; no record is left half-written
(the record invariant holds in every durable state). -/
theorem sweep_single_commit (cl : Classifier) (store : Store)
    (hinv : ∀ r ∈ store, recInv r) :
    (batch_diagnose_run cl store).1.length ≤ 1
  ∧ (∀ t ∈ (batch_diagnose_run cl store).1,
      batch_diagnose cl store = Except.ok t ∧
      ∀ r ∈ t, r.is_server_diagnosed = true)
  ∧ (∀ k, durableAfter cl store k = store ∨
      batch_diagnose cl store = Except.ok (durableAfter cl store k))
  ∧ (∀ k, ∀ r ∈ durableAfter cl store k, recInv r) := by
  cases hb : batch_diagnose cl store with
  | error e =>
    refine ⟨?_, ?_, ?_, ?_⟩
    · simp [batch_diagnose_run, hb]
    · intro t ht; simp [batch_diagnose_run, hb] at ht
    · intro k; left; simp [durableAfter, batch_diagnose_run, hb]
    · intro k r hr
      have : durableAfter cl store k = store := by
        simp [durableAfter, batch_diagnose_run, hb]
      rw [this] at hr
      exact hinv r hr
  | ok s2 =>
    obtain ⟨probs, hcl, hdp⟩ := batch_diagnose_ok_elim hb
    have hall : ∀ r ∈ s2, r.is_server_diagnosed = true :=
      diagnosePending_all_diagnosed hdp
    have hinv2 : ∀ r ∈ s2, recInv r := diagnosePending_recInv hdp hinv
    have hdur : ∀ k, durableAfter cl store k = store ∨
        durableAfter cl store k = s2 := by
      intro k
      cases k with
      | zero => left; simp [durableAfter, batch_diagnose_run, hb]
      | succ j =>
        right
        simp [durableAfter, batch_diagnose_run, hb, List.take_succ_cons]
    refine ⟨?_, ?_, ?_, ?_⟩
    · simp [batch_diagnose_run, hb]
    · intro t ht
      have ht2 : t = s2 := by
        simp only [batch_diagnose_run, hb, List.mem_singleton] at ht
        exact ht
      subst ht2
      exact ⟨rfl, hall⟩
    · intro k
      rcases hdur k with h | h
      · left; exact h
      · right; rw [h]
    · intro k r hr
      rcases hdur k with h | h
      · rw [h] at hr; exact hinv r hr
      · rw [h] at hr; exact hinv2 r hr

/-- Witness for `sweep_single_commit` on the concrete two-record store. -/
theorem sweep_single_commit_witness :
    (∀ r ∈ sweepStore2, recInv r)
  ∧ (batch_diagnose_run totalCl sweepStore2).1.length ≤ 1
  ∧ (∀ k, durableAfter totalCl sweepStore2 k = sweepStore2 ∨
      batch_diagnose totalCl sweepStore2 =
        Except.ok (durableAfter totalCl sweepStore2 k)) := by
  have hinv : ∀ r ∈ sweepStore2, recInv r := by decide
  exact ⟨hinv, (sweep_single_commit totalCl sweepStore2 hinv).1,
    (sweep_single_commit totalCl sweepStore2 hinv).2.2.1⟩

/-- C6: the sweep never reselects a diagnosed record: a successful sweep
leaves every record diagnosed, so running the sweep again returns the
store unchanged (every record's `server_diagnosis` is identical after the
second run), the sweep preserves the record count, and any record that was
already diagnosed going in is untouched in place (write-once). -/
theorem sweep_write_once (cl : Classifier) (store s1 : Store)
    (h : batch_diagnose cl store = Except.ok s1) :
    batch_diagnose cl s1 = Except.ok s1
  ∧ s1.length = store.length
  ∧ ∀ i, (store.getD i default).is_server_diagnosed = true →
      s1.getD i default = store.getD i default := by
  obtain ⟨probs, hcl, hdp⟩ := batch_diagnose_ok_elim h
  have hall : ∀ r ∈ s1, r.is_server_diagnosed = true :=
    diagnosePending_all_diagnosed hdp
  refine ⟨?_, diagnosePending_length hdp, ?_⟩
  · have hfil : s1.filter (fun r => !r.is_server_diagnosed) = [] := by
      rw [List.filter_eq_nil_iff]
      intro r hr
      simp [hall r hr]
    unfold batch_diagnose
    rw [hfil]
    simp only [List.map_nil, allClassify]
    exact diagnosePending_of_all_diagnosed hall []
  · intro i hi
    exact diagnosePending_getD_of_diagnosed hdp i hi

/-- A record already diagnosed as `MILDEW` before the sweep. -/
def diagnosedRecA : DiagnosisRecord :=
  { pendingRec "a" "img1" with
    server_diagnosis := some DiseaseTypeEnum.MILDEW,
    is_server_diagnosed := true,
    server_confidence_score := some [0, 0, 0, 0, 1] }

/-- The record `pendingRec "b" "img2"` after `totalCl` classifies it. -/
def diagnosedRecB : DiagnosisRecord :=
  { pendingRec "b" "img2" with
    server_diagnosis := some DiseaseTypeEnum.BROWN_RUST,
    is_server_diagnosed := true,
    server_confidence_score := some [1, 0, 0, 0, 0] }

/-- Witness for `sweep_write_once`: a store holding one already-diagnosed
record and one pending record; after the first sweep the second sweep is
the identity and the diagnosed record is untouched. -/
theorem sweep_write_once_witness :
    batch_diagnose totalCl [diagnosedRecA, pendingRec "b" "img2"] =
      Except.ok [diagnosedRecA, diagnosedRecB]
  ∧ batch_diagnose totalCl [diagnosedRecA, diagnosedRecB] =
      Except.ok [diagnosedRecA, diagnosedRecB] := by
  have h1 : batch_diagnose totalCl [diagnosedRecA, pendingRec "b" "img2"] =
      Except.ok [diagnosedRecA, diagnosedRecB] := by decide
  exact ⟨h1, (sweep_write_once totalCl _ _ h1).1⟩

/-- A mobile-diagnosis payload used in the concrete error-path and
mobile-path theorems. -/
def sampleInput : MobileDiagnosisInput :=
  { mobile_id := "m1", mobile_diagnosis := some DiseaseTypeEnum.HEALTHY,
    manual_diagnosis := some DiseaseTypeEnum.SEPTORIA,
    mobile_image_path := "new.jpg", remark := some "leaf spots",
    file_name := "f.jpg", mobile_confidence_score := some [0, 0, 0, 1, 0] }

/-- C4: the claimed error kinds never reach the caller.  Each service body
does raise the intended error — `update_manual_diagnosis` raises a 404 for
an absent `(user_idx, server_id)` and `get_diagnosis_report` raises a 403
for a caller who is not System Admin — but both raises happen inside the
`try` block, so the blanket `except Exception` handler catches them and
re-raises an HTTP 500; `update_mobile_diagnosis` has no existence check at
all for an absent `mobile_id` (it dereferences `None`), which the same
handler also turns into a 500.  The caller therefore observes `Internal`
in all three cases, never `NotFound` or `Forbidden`. -/
theorem error_kinds_swallowed_to_500 :
    update_manual_diagnosis_body [] "sid" 1 DiseaseTypeEnum.HEALTHY =
      Except.error ErrKind.NotFound
  ∧ update_manual_diagnosis [] "sid" 1 DiseaseTypeEnum.HEALTHY =
      Except.error ErrKind.Internal
  ∧ update_mobile_diagnosis [] sampleInput = Except.error ErrKind.Internal
  ∧ get_diagnosis_report_body [] { role := UserTypeEnum.USER } =
      Except.error ErrKind.Forbidden
  ∧ get_diagnosis_report [] { role := UserTypeEnum.USER } =
      Except.error ErrKind.Internal := by
  refine ⟨rfl, rfl, rfl, rfl, rfl⟩

/-- The three-record agreement example of the specification:
`(manual, server)` pairs `(HEALTHY, HEALTHY)`, `(HEALTHY, MILDEW)`,
`(SEPTORIA, SEPTORIA)`. -/
def agreementRec (m s : DiseaseTypeEnum) : DiagnosisRecord :=
  { pendingRec "x" "img" with
    manual_diagnosis := some m,
    server_diagnosis := some s,
    is_server_diagnosed := true,
    server_confidence_score := some [1, 0, 0, 0, 0] }

/-- Store carrying exactly the specification's three qualifying records. -/
def agreementStore : Store :=
  [agreementRec DiseaseTypeEnum.HEALTHY DiseaseTypeEnum.HEALTHY,
   agreementRec DiseaseTypeEnum.HEALTHY DiseaseTypeEnum.MILDEW,
   agreementRec DiseaseTypeEnum.SEPTORIA DiseaseTypeEnum.SEPTORIA]

/-- C8: the agreement report counts cell `[manual][server]` of the 6-label
matrix as the number of qualifying records with that pair, its `total` is
the number of qualifying records (the sum of all cells), `incorrect` is
`total - correct` with `correct` (the diagonal sum) never exceeding
`total`; an empty qualifying set gives the all-zero matrix and
`total = 0` with no division performed; and the specification's
three-record example yields `correct = 2`, `incorrect = 1`, `total = 3`
with exactly the three expected cells set to 1. -/
theorem diagnosis_report_spec (store : Store) :
    (∀ i j, i < 6 → j < 6 →
      (((diagnosis_report_json store).matrix.getD i []).getD j 0 =
        cellCount (qualifyingPairs store)
          (reportLabels.getD i DiseaseTypeEnum.OTHER)
          (reportLabels.getD j DiseaseTypeEnum.OTHER)))
  ∧ (diagnosis_report_json store).total = (qualifyingPairs store).length
  ∧ (diagnosis_report_json store).incorrect_predictions =
      (diagnosis_report_json store).total -
        (diagnosis_report_json store).correct_predictions
  ∧ (diagnosis_report_json store).correct_predictions ≤
      (diagnosis_report_json store).total
  ∧ (qualifyingPairs store = [] →
      diagnosis_report_json store =
        { correct_predictions := 0, incorrect_predictions := 0, total := 0,
          matrix := [[0, 0, 0, 0, 0, 0], [0, 0, 0, 0, 0, 0],
                     [0, 0, 0, 0, 0, 0], [0, 0, 0, 0, 0, 0],
                     [0, 0, 0, 0, 0, 0], [0, 0, 0, 0, 0, 0]] })
  ∧ diagnosis_report_json agreementStore =
      { correct_predictions := 2, incorrect_predictions := 1, total := 3,
        matrix := [[0, 0, 0, 0, 0, 0], [0, 0, 0, 0, 0, 0],
                   [0, 0, 1, 0, 0, 0], [0, 0, 0, 1, 1, 0],
                   [0, 0, 0, 0, 0, 0], [0, 0, 0, 0, 0, 0]] } := by
  obtain ⟨ht, hc, hi, hm⟩ := diagnosis_report_json_parts store
  refine ⟨?_, ?_, ?_, ?_, ?_, ?_⟩
  · intro i j hi6 hj6
    rw [hm]
    interval_cases i <;> interval_cases j <;> rfl
  · rw [ht, reportTotal_eq_length]
  · rw [hi, ht, hc]
  · rw [ht, hc]
    exact reportCorrect_le_total (qualifyingPairs store)
  · intro hq
    have : diagnosis_report_json store =
        { correct_predictions := reportCorrect (qualifyingPairs store),
          incorrect_predictions :=
            reportTotal (qualifyingPairs store) -
              reportCorrect (qualifyingPairs store),
          total := reportTotal (qualifyingPairs store),
          matrix := confusion_matrix (qualifyingPairs store) } := rfl
    rw [this, hq]
    decide
  · decide

/-- Witness for `diagnosis_report_spec`: the empty store has an empty
qualifying set, and the report on it is all zeros via the theorem. -/
theorem diagnosis_report_spec_witness :
    qualifyingPairs ([] : Store) = []
  ∧ diagnosis_report_json ([] : Store) =
      { correct_predictions := 0, incorrect_predictions := 0, total := 0,
        matrix := [[0, 0, 0, 0, 0, 0], [0, 0, 0, 0, 0, 0],
                   [0, 0, 0, 0, 0, 0], [0, 0, 0, 0, 0, 0],
                   [0, 0, 0, 0, 0, 0], [0, 0, 0, 0, 0, 0]] }
  ∧ ((diagnosis_report_json ([] : Store)).matrix.getD 3 []).getD 3 0 =
      cellCount (qualifyingPairs ([] : Store))
        (reportLabels.getD 3 DiseaseTypeEnum.OTHER)
        (reportLabels.getD 3 DiseaseTypeEnum.OTHER) :=
  ⟨rfl, (diagnosis_report_spec []).2.2.2.2.1 rfl,
    (diagnosis_report_spec []).1 3 3 (by norm_num) (by norm_num)⟩

lemma upload_image_ok {s : Store} {f : UploadFile} {u : Nat} {sid : String}
    {t : Nat} {s2 : Store} (h : upload_image s f u sid t = Except.ok s2) :
    s2 = s ++ [newUploadRecord u sid f t] := by
  unfold upload_image at h
  have h2 := handleBlanket_ok h
  split_ifs at h2
  all_goals first
    | exact Except.noConfusion h2
    | (injection h2 with h3; exact h3.symm)

lemma update_manual_ok {s : Store} {sid : String} {uid : Nat}
    {d : DiseaseTypeEnum} {s2 : Store} {r2 : DiagnosisRecord}
    (h : update_manual_diagnosis s sid uid d = Except.ok (s2, r2)) :
    ∃ r0, s.find? (matchesManualKey uid sid) = some r0 ∧
      r2 = { r0 with manual_diagnosis := some d } ∧
      s2 = updateFirstBy (matchesManualKey uid sid) (fun _ => r2) s := by
  have h2 := handleBlanket_ok h
  unfold update_manual_diagnosis_body at h2
  cases hf : s.find? (matchesManualKey uid sid) with
  | none => rw [hf] at h2; exact absurd h2 (by simp)
  | some r0 =>
    rw [hf] at h2
    simp only [Except.ok.injEq, Prod.mk.injEq] at h2
    obtain ⟨hs, hr⟩ := h2
    exact ⟨r0, rfl, hr.symm, by rw [← hs, ← hr]⟩

lemma update_mobile_ok {s : Store} {inp : MobileDiagnosisInput} {s2 : Store}
    {r2 : DiagnosisRecord}
    (h : update_mobile_diagnosis s inp = Except.ok (s2, r2)) :
    ∃ r0, s.find? (matchesMobileKey inp.mobile_id) = some r0 ∧
      r2 = { r0 with
              mobile_diagnosis := inp.mobile_diagnosis
              manual_diagnosis := inp.manual_diagnosis
              remark := inp.remark
              mobile_confidence_score := inp.mobile_confidence_score } ∧
      s2 = updateFirstBy (matchesMobileKey inp.mobile_id) (fun _ => r2) s := by
  have h2 := handleBlanket_ok h
  unfold update_mobile_diagnosis_body at h2
  cases hf : s.find? (matchesMobileKey inp.mobile_id) with
  | none => rw [hf] at h2; exact absurd h2 (by simp)
  | some r0 =>
    rw [hf] at h2
    simp only [Except.ok.injEq, Prod.mk.injEq] at h2
    obtain ⟨hs, hr⟩ := h2
    exact ⟨r0, rfl, hr.symm, by rw [← hs, ← hr]⟩

lemma newUploadRecord_recInv (u : Nat) (sid : String) (f : UploadFile)
    (t : Nat) : recInv (newUploadRecord u sid f t) := by
  unfold recInv newUploadRecord
  simp

/-- C5: every store operation — record creation at upload, the batch
sweep, mobile create, mobile update and the manual-diagnosis update —
preserves the invariant that `is_server_diagnosed` is true exactly when
`server_diagnosis` and `server_confidence_score` are both non-null; no
operation sets or clears one of the two fields without the other. -/
theorem store_ops_preserve_recInv (op : StoreOp) (s : Store)
    (h : ∀ r ∈ s, recInv r) : ∀ r ∈ applyOp op s, recInv r := by
  cases op with
  | upload f u sid t =>
    intro r hr
    dsimp only [applyOp] at hr
    cases hu : upload_image s f u sid t with
    | error e => rw [hu] at hr; exact h r hr
    | ok s2 =>
      rw [hu] at hr
      dsimp only at hr
      rw [upload_image_ok hu] at hr
      rcases List.mem_append.mp hr with h1 | h1
      · exact h r h1
      · rw [List.mem_singleton.mp h1]
        exact newUploadRecord_recInv u sid f t
  | sweep cl =>
    intro r hr
    dsimp only [applyOp] at hr
    unfold runSweepStore at hr
    cases hb : batch_diagnose cl s with
    | error e => rw [hb] at hr; exact h r hr
    | ok s2 =>
      rw [hb] at hr
      dsimp only at hr
      obtain ⟨probs, hcl, hdp⟩ := batch_diagnose_ok_elim hb
      exact diagnosePending_recInv hdp h r hr
  | mobileCreate f inp u sid t =>
    intro r hr
    dsimp only [applyOp, upload_mobile_diagnosis] at hr
    rcases List.mem_append.mp hr with h1 | h1
    · exact h r h1
    · rw [List.mem_singleton.mp h1]
      unfold recInv
      simp
  | mobileUpdate inp =>
    intro r hr
    dsimp only [applyOp] at hr
    cases hE : update_mobile_diagnosis s inp with
    | error e => rw [hE] at hr; exact h r hr
    | ok pr =>
      obtain ⟨s2, r2⟩ := pr
      rw [hE] at hr
      dsimp only at hr
      obtain ⟨r0, hf, hr2, hs2⟩ := update_mobile_ok hE
      rw [hs2] at hr
      rcases updateFirstBy_mem _ _ s r hr with h1 | ⟨x, hx, hfx⟩
      · exact h r h1
      · rw [hfx, hr2]
        have hr0 : recInv r0 := h r0 (List.mem_of_find?_eq_some hf)
        unfold recInv at hr0 ⊢
        simpa using hr0
  | manualUpdate sid u d =>
    intro r hr
    dsimp only [applyOp] at hr
    cases hE : update_manual_diagnosis s sid u d with
    | error e => rw [hE] at hr; exact h r hr
    | ok pr =>
      obtain ⟨s2, r2⟩ := pr
      rw [hE] at hr
      dsimp only at hr
      obtain ⟨r0, hf, hr2, hs2⟩ := update_manual_ok hE
      rw [hs2] at hr
      rcases updateFirstBy_mem _ _ s r hr with h1 | ⟨x, hx, hfx⟩
      · exact h r h1
      · rw [hfx, hr2]
        have hr0 : recInv r0 := h r0 (List.mem_of_find?_eq_some hf)
        unfold recInv at hr0 ⊢
        simpa using hr0

/-- A record created through the mobile path earlier, with an old mobile
image path, used as the update target in the mobile-path theorems. -/
def oldMobileRec : DiagnosisRecord :=
  { pendingRec "s0" "old-server.jpg" with
    mobile_id := some "m1", mobile_image_path := some "old.jpg" }

/-- Witness for `store_ops_preserve_recInv`: the mobile update of
`oldMobileRec` by `sampleInput` keeps the invariant on every record. -/
theorem store_ops_preserve_recInv_witness :
    (∀ r ∈ [oldMobileRec], recInv r)
  ∧ (∀ r ∈ applyOp (StoreOp.mobileUpdate sampleInput) [oldMobileRec], recInv r) := by
  have h : ∀ r ∈ [oldMobileRec], recInv r := by decide
  exact ⟨h, store_ops_preserve_recInv (StoreOp.mobileUpdate sampleInput)
    [oldMobileRec] h⟩

/-- A concrete upload file for the mobile create path. -/
def sampleFile : UploadFile :=
  { filename := "f.jpg", content_type := "image/jpeg", image_kind := some "jpeg" }

/-- C9 counterexample: creating a record from `sampleInput` (which submits
`manualDiagnosis = SEPTORIA`) stores a null `manual_diagnosis` — the
assignment is commented out in the source — and updating `oldMobileRec`
(whose stored path is `old.jpg`) with the submitted path `new.jpg` leaves
`mobile_image_path` at `old.jpg`: neither side of the claim holds as
stated. -/
theorem mobile_paths_claim_counterexample :
    sampleInput.manual_diagnosis = some DiseaseTypeEnum.SEPTORIA
  ∧ (upload_mobile_diagnosis [] sampleFile sampleInput 1 "sid1" 0).map
      (fun p => p.2.manual_diagnosis) = Except.ok none
  ∧ sampleInput.mobile_image_path = "new.jpg"
  ∧ (update_mobile_diagnosis [oldMobileRec] sampleInput).map
      (fun p => p.2.mobile_image_path) = Except.ok (some "old.jpg") := by
  refine ⟨rfl, rfl, rfl, by decide⟩

/-- C9 amended: the mobile create path stores the submitted `mobileId`,
`mobileDiagnosis`, `mobileConfidenceScore`, `mobileImagePath` and `remark`
on the new record but NOT the submitted `manualDiagnosis` (left null); the
mobile update path replaces `mobileDiagnosis`, `manualDiagnosis`, `remark`
and `mobileConfidenceScore` wholesale but leaves the stored
`mobileImagePath` unchanged; in both cases the returned record is the
stored one. -/
theorem mobile_paths_amended (store : Store) (file : UploadFile)
    (inp : MobileDiagnosisInput) (uid : Nat) (sid : String) (t : Nat)
    (s2 s3 : Store) (r2 r3 : DiagnosisRecord) :
    (upload_mobile_diagnosis store file inp uid sid t = Except.ok (s3, r3) →
      s3 = store ++ [r3]
      ∧ r3.mobile_id = some inp.mobile_id
      ∧ r3.mobile_diagnosis = inp.mobile_diagnosis
      ∧ r3.mobile_confidence_score = inp.mobile_confidence_score
      ∧ r3.mobile_image_path = some inp.mobile_image_path
      ∧ r3.remark = inp.remark
      ∧ r3.manual_diagnosis = none)
  ∧ (update_mobile_diagnosis store inp = Except.ok (s2, r2) →
      ∃ r0, store.find? (matchesMobileKey inp.mobile_id) = some r0
        ∧ r2.mobile_diagnosis = inp.mobile_diagnosis
        ∧ r2.manual_diagnosis = inp.manual_diagnosis
        ∧ r2.remark = inp.remark
        ∧ r2.mobile_confidence_score = inp.mobile_confidence_score
        ∧ r2.mobile_image_path = r0.mobile_image_path
        ∧ s2 = updateFirstBy (matchesMobileKey inp.mobile_id)
            (fun _ => r2) store) := by
  constructor
  · intro h
    unfold upload_mobile_diagnosis at h
    simp only [Except.ok.injEq, Prod.mk.injEq] at h
    obtain ⟨hs, hr⟩ := h
    subst hr
    subst hs
    exact ⟨rfl, rfl, rfl, rfl, rfl, rfl, rfl⟩
  · intro h
    obtain ⟨r0, hf, hr2, hs2⟩ := update_mobile_ok h
    exact ⟨r0, hf, by rw [hr2], by rw [hr2], by rw [hr2], by rw [hr2],
      by rw [hr2], hs2⟩

/-- Witness for `mobile_paths_amended` on the concrete create and update
calls used by the counterexample. -/
theorem mobile_paths_amended_witness :
    (upload_mobile_diagnosis [] sampleFile sampleInput 1 "sid1" 0).map
      (fun p => p.2.mobile_diagnosis) = Except.ok (some DiseaseTypeEnum.HEALTHY)
  ∧ (∃ s3 r3, upload_mobile_diagnosis [] sampleFile sampleInput 1 "sid1" 0 =
      Except.ok (s3, r3) ∧ s3 = [] ++ [r3] ∧ r3.manual_diagnosis = none)
  ∧ (∃ s2 r2, update_mobile_diagnosis [oldMobileRec] sampleInput =
      Except.ok (s2, r2) ∧ r2.mobile_image_path = oldMobileRec.mobile_image_path) := by
  refine ⟨rfl, ?_, ?_⟩
  · obtain ⟨s3, r3, h3⟩ :
        ∃ s3 r3, upload_mobile_diagnosis [] sampleFile sampleInput 1 "sid1" 0 =
          Except.ok (s3, r3) := ⟨_, _, rfl⟩
    have hparts := (mobile_paths_amended [] sampleFile sampleInput 1 "sid1" 0
      [] s3 default r3).1 h3
    exact ⟨s3, r3, h3, hparts.1, hparts.2.2.2.2.2.2⟩
  · obtain ⟨s2, r2, h2⟩ :
        ∃ s2 r2, update_mobile_diagnosis [oldMobileRec] sampleInput =
          Except.ok (s2, r2) := ⟨_, _, rfl⟩
    obtain ⟨r0, hf, _, _, _, _, hpath, _⟩ :=
      (mobile_paths_amended [oldMobileRec] sampleFile sampleInput 1 "sid1" 0
        s2 [] r2 default).2 h2
    have hr0 : r0 = oldMobileRec := by
      have : ([oldMobileRec].find? (matchesMobileKey sampleInput.mobile_id)) =
          some oldMobileRec := by decide
      rw [this] at hf
      exact (Option.some.inj hf).symm
    rw [hr0] at hpath
    exact ⟨s2, r2, h2, hpath⟩

/-- C10: the manual-review update sets `manual_diagnosis` on the matched
record and leaves every other field of every record unchanged — in
particular `mobile_diagnosis`, `mobile_confidence_score`,
`server_diagnosis`, `server_confidence_score`, `is_server_diagnosed` and
`created_at` are identical before and after, at every position of the
store. -/
theorem manual_update_frame (s : Store) (sid : String) (uid : Nat)
    (d : DiseaseTypeEnum) (s2 : Store) (r2 : DiagnosisRecord)
    (h : update_manual_diagnosis s sid uid d = Except.ok (s2, r2)) :
    r2.manual_diagnosis = some d
  ∧ s2.length = s.length
  ∧ ∀ i,
      (s2.getD i default).mobile_diagnosis = (s.getD i default).mobile_diagnosis
    ∧ (s2.getD i default).mobile_confidence_score =
        (s.getD i default).mobile_confidence_score
    ∧ (s2.getD i default).server_diagnosis = (s.getD i default).server_diagnosis
    ∧ (s2.getD i default).server_confidence_score =
        (s.getD i default).server_confidence_score
    ∧ (s2.getD i default).is_server_diagnosed =
        (s.getD i default).is_server_diagnosed
    ∧ (s2.getD i default).created_at = (s.getD i default).created_at
    ∧ (s2.getD i default).mobile_image_path = (s.getD i default).mobile_image_path
    ∧ (s2.getD i default).server_image_path = (s.getD i default).server_image_path
    ∧ (s2.getD i default).server_id = (s.getD i default).server_id
    ∧ (s2.getD i default).mobile_id = (s.getD i default).mobile_id
    ∧ (s2.getD i default).user_idx = (s.getD i default).user_idx
    ∧ (s2.getD i default).image_name = (s.getD i default).image_name
    ∧ (s2.getD i default).remark = (s.getD i default).remark := by
  obtain ⟨r0, hf, hr2, hs2⟩ := update_manual_ok h
  refine ⟨by rw [hr2], ?_, ?_⟩
  · rw [hs2]
    exact updateFirstBy_length _ _ s
  · intro i
    rw [hs2]
    rcases updateFirstBy_getD (matchesManualKey uid sid) (fun _ => r2) s i with
      heq | ⟨heq, hfind⟩
    · rw [heq]
      exact ⟨rfl, rfl, rfl, rfl, rfl, rfl, rfl, rfl, rfl, rfl, rfl, rfl, rfl⟩
    · have hr0i : r0 = s.getD i default := by
        rw [hf] at hfind
        exact Option.some.inj hfind
      rw [heq, hr2, hr0i]
      exact ⟨rfl, rfl, rfl, rfl, rfl, rfl, rfl, rfl, rfl, rfl, rfl, rfl, rfl⟩

/-- Witness for `manual_update_frame`: updating `oldMobileRec` (key
`("s0", 1)`) with `HEALTHY` succeeds and leaves the frame fields at
position 0 unchanged. -/
theorem manual_update_frame_witness :
    (∃ s2 r2, update_manual_diagnosis [oldMobileRec] "s0" 1
        DiseaseTypeEnum.HEALTHY = Except.ok (s2, r2)
      ∧ r2.manual_diagnosis = some DiseaseTypeEnum.HEALTHY
      ∧ (s2.getD 0 default).mobile_diagnosis =
          ([oldMobileRec].getD 0 default).mobile_diagnosis
      ∧ (s2.getD 0 default).server_diagnosis =
          ([oldMobileRec].getD 0 default).server_diagnosis) := by
  obtain ⟨s2, r2, h2⟩ :
      ∃ s2 r2, update_manual_diagnosis [oldMobileRec] "s0" 1
        DiseaseTypeEnum.HEALTHY = Except.ok (s2, r2) := ⟨_, _, rfl⟩
  obtain ⟨hman, _, hframe⟩ :=
    manual_update_frame [oldMobileRec] "s0" 1 DiseaseTypeEnum.HEALTHY s2 r2 h2
  exact ⟨s2, r2, h2, hman, (hframe 0).1, (hframe 0).2.2.1⟩
